import Mathlib

/-!
# Meeting backend: storage and REST handlers

A shallow embedding of `handlers/src/user_meeting.cpp` (the SQLite-backed
`SqliteStorage` and the five `HandleRestRequest` handlers) together with the
`Meeting` entity and its JSON mapping, followed by theorems about them.

Conventions of the embedding:

* the table `meeting` is the list of its rows in storage order; the SQL
  statements the code issues are functions on that list;
* a C++ `int` is an `Int` expected to lie between `INT_MIN` and `INT_MAX`;
  where a 64-bit SQLite integer is extracted into an `int` the low 32 bits
  are kept (`toInt32`);
* a method that mutates the storage returns the new storage next to its
  result; an exception that leaves a handler is an `Except.error`;
* the mutex and the log lines are not modelled (every call runs alone), the
  query counter `m_count` is.
-/

namespace handlers

/-! ## Machine integers -/

/-- Smallest value of a 32-bit C++ `int`. -/
def INT_MIN : Int := -2147483648

/-- Largest value of a 32-bit C++ `int`. -/
def INT_MAX : Int := 2147483647

/-- The `int` that receives a 64-bit SQLite integer through `into(int&)`:
`sqlite3_column_int` keeps the low 32 bits, read as two's complement. -/
def toInt32 (z : Int) : Int := (z + 2147483648) % 4294967296 - 2147483648

/-! ## Entity -/

/-- Modelled from the spec: the record `Meeting` of `user_meeting.hpp`, which is
not among the sources. Section 3 of the specification lists its fields; the
unit test `json_test.cpp` assigns exactly these ten members, and the storage
code uses `id` as a `std::optional<int>`. -/
structure Meeting where
  id : Option Int
  name : String
  description : String
  address : String
  signup_description : String
  signup_from_date : Int
  signup_to_date : Int
  from_date : Int
  to_date : Int
  published : Bool
deriving DecidableEq

/-- Modelled from the spec: the value of a default-constructed `Meeting`
(`Meeting meeting;`), whose declaration is in the absent `user_meeting.hpp`:
`id` absent ("absent before persistence"), strings empty, integers zero,
`published` false. -/
def Meeting.fresh : Meeting :=
  { id := none, name := "", description := "", address := "",
    signup_description := "", signup_from_date := 0, signup_to_date := 0,
    from_date := 0, to_date := 0, published := false }

/-! ## JSON values and the entity mapping -/

/-- A JSON value as `nlohmann::json` holds it (numbers are integers here). -/
inductive Json where
  | null
  | boolean (b : Bool)
  | number (n : Int)
  | string (s : String)
  | array (xs : List Json)
  | object (kvs : List (String × Json))

/-- Value stored under `key` in an object, as `json::find`: absent for a
missing key and for a value that is not an object. -/
def Json.find (j : Json) (key : String) : Option Json :=
  match j with
  | .object kvs => kvs.lookup key
  | _ => none

/-- The keys of an object, in the order they are held. -/
def Json.keys (j : Json) : List String :=
  match j with
  | .object kvs => kvs.map Prod.fst
  | _ => []

/-- Appends a value to an array, as `json::push_back` (a null value becomes a
one-element array; the handlers call it on an array only). -/
def Json.push_back (j : Json) (v : Json) : Json :=
  match j with
  | .array xs => .array (xs ++ [v])
  | .null => .array [v]
  | other => other

/-- Reads a string value; absent when the value has another type. -/
def Json.getString : Json → Option String
  | .string s => some s
  | _ => none

/-- Reads an integer value; absent when the value has another type. -/
def Json.getInt : Json → Option Int
  | .number n => some n
  | _ => none

/-- Reads a boolean value; absent when the value has another type. -/
def Json.getBool : Json → Option Bool
  | .boolean b => some b
  | _ => none

/-- Modelled from the spec: the marshaling function `to_json` for `Meeting`,
declared in the absent `user_meeting.hpp`. Every field is emitted under its
exact field name; `id` is emitted only when present. -/
def to_json (m : Meeting) : Json :=
  .object
    ((match m.id with
      | some i => [("id", Json.number i)]
      | none => []) ++
     [("name", .string m.name),
      ("description", .string m.description),
      ("address", .string m.address),
      ("signup_description", .string m.signup_description),
      ("signup_from_date", .number m.signup_from_date),
      ("signup_to_date", .number m.signup_to_date),
      ("from_date", .number m.from_date),
      ("to_date", .number m.to_date),
      ("published", .boolean m.published)])

/-- Modelled from the spec: the unmarshaling function `from_json` for
`Meeting`, declared in the absent `user_meeting.hpp`. An object without the
key `id` gives a Meeting whose `id` is absent; with the key, `id` is the value
given. The nine other fields are read under their field names. The result is
`none` where the conversion throws (a value that is not an object, a missing
field, a value of the wrong type). -/
def from_json (j : Json) : Option Meeting :=
  match (match j.find "id" with
         | none => some none
         | some v => v.getInt.map some) with
  | none => none
  | some id =>
    match (j.find "name").bind Json.getString,
          (j.find "description").bind Json.getString,
          (j.find "address").bind Json.getString,
          (j.find "signup_description").bind Json.getString,
          (j.find "signup_from_date").bind Json.getInt,
          (j.find "signup_to_date").bind Json.getInt,
          (j.find "from_date").bind Json.getInt,
          (j.find "to_date").bind Json.getInt,
          (j.find "published").bind Json.getBool with
    | some name, some description, some address, some signup_description,
      some signup_from_date, some signup_to_date, some from_date, some to_date,
      some published =>
      some { id := id, name := name, description := description,
             address := address, signup_description := signup_description,
             signup_from_date := signup_from_date,
             signup_to_date := signup_to_date, from_date := from_date,
             to_date := to_date, published := published }
    | _, _, _, _, _, _, _, _, _ => none

/-! ## The table `meeting` and the SQL statements issued on it -/

/-- Modelled from the spec: a row of the table `meeting`, whose schema is not
among the sources. The columns are those every statement of
`user_meeting.cpp` names: `id` (auto-generated integer primary key, a 64-bit
SQLite row id), `name`, `description`, `address`, and `published` (an integer,
written as 0 or 1). -/
structure Row where
  id : Int
  name : String
  description : String
  address : String
  published : Int
deriving DecidableEq

/-- Modelled from the spec: `id` is an auto-generated integer primary key
(section 6); the schema is not among the sources. For such a column SQLite
generates one more than the largest row id present, and 1 in an empty table.
(Row ids are 64-bit; what SQLite does once the largest possible row id is
taken is outside this definition.) -/
def nextRowid : List Row → Int
  | [] => 1
  | r :: rs => if rs = [] then r.id + 1 else max (r.id + 1) (nextRowid rs)

/-- Statement `UPDATE meeting SET name=?, description=?, address=?,
published=? WHERE id=?`. -/
def sqlUpdate (rows : List Row) (name description address : String)
    (published : Int) (id : Int) : List Row :=
  rows.map fun r =>
    if r.id = id then
      { r with name := name, description := description, address := address,
               published := published }
    else r

/-- Statement `INSERT INTO meeting (name, description, address, published)
VALUES(?, ?, ?, ?)`: the new table and the generated row id, which
`SELECT last_insert_rowid()` then reports. -/
def sqlInsert (rows : List Row) (name description address : String)
    (published : Int) : List Row × Int :=
  let rowid := nextRowid rows
  (rows ++ [{ id := rowid, name := name, description := description,
              address := address, published := published }], rowid)

/-- Statement `SELECT COUNT(*) FROM meeting WHERE id=?`. -/
def sqlCount (rows : List Row) (id : Int) : Int :=
  ((rows.filter fun r => r.id == id).length : Int)

/-- Statement `SELECT id, name, description, address, published FROM meeting
WHERE id=?`: the first matching row, if any (a primary key admits one at
most). -/
def sqlSelect (rows : List Row) (id : Int) : Option Row :=
  rows.find? fun r => r.id == id

/-- Statement `DELETE FROM meeting WHERE id=?`. -/
def sqlDelete (rows : List Row) (id : Int) : List Row :=
  rows.filter fun r => !(r.id == id)

/-! ## `SqliteStorage` -/

/-- The storage object: the table behind `m_session` and the query counter
`m_count`. -/
structure SqliteStorage where
  rows : List Row
  m_count : Int
deriving DecidableEq

/-- Helper `b2i` of `SqliteStorage`. -/
def b2i (b : Bool) : Int := if b then 1 else 0

/-- Extraction of one result row into the members of `meeting` that the
`SELECT` statements bind with `into`: `id`, `name`, `description`, `address`
and `published` (an integer column read into a `bool`). The other members keep
the value they had. -/
def extract (meeting : Meeting) (row : Row) : Meeting :=
  { meeting with
    id := some (toInt32 row.id), name := row.name,
    description := row.description, address := row.address,
    published := row.published != 0 }

/-- Method `SqliteStorage::Save`: the meeting as left in the caller's variable
and the storage afterwards. -/
def SqliteStorage.Save (s : SqliteStorage) (meeting : Meeting) :
    Meeting × SqliteStorage :=
  match meeting.id with
  | some id =>
    let published := b2i meeting.published
    let rows := sqlUpdate s.rows meeting.name meeting.description
      meeting.address published id
    (meeting, { rows := rows, m_count := s.m_count + 1 })
  | none =>
    let published := b2i meeting.published
    let inserted := sqlInsert s.rows meeting.name meeting.description
      meeting.address published
    let id := toInt32 inserted.2
    ({ meeting with id := some id },
     { rows := inserted.1, m_count := s.m_count + 1 })

/-- The loop of `GetList`: each step of the cursor extracts one row into the
single variable `meeting` and pushes a copy of it onto `list`. -/
def fetchAll (meeting : Meeting) (cursor : List Row) (list : List Meeting) :
    List Meeting :=
  match cursor with
  | [] => list
  | row :: rest =>
    let meeting := extract meeting row
    fetchAll meeting rest (list ++ [meeting])

/-- Method `SqliteStorage::GetList`. The variable `meeting` starts
default-constructed with `id` emplaced (zero). -/
def SqliteStorage.GetList (s : SqliteStorage) :
    List Meeting × SqliteStorage :=
  (fetchAll { Meeting.fresh with id := some 0 } s.rows [],
   { s with m_count := s.m_count + 1 })

/-- Method `SqliteStorage::Get`: the count probe, then, when it is positive,
the extraction of the row into a default-constructed meeting (`tmp_id` starts
at zero). -/
def SqliteStorage.Get (s : SqliteStorage) (id : Int) :
    Option Meeting × SqliteStorage :=
  let cnt := sqlCount s.rows id
  if cnt > 0 then
    let meeting :=
      match sqlSelect s.rows id with
      | some row => extract Meeting.fresh row
      | none => { Meeting.fresh with id := some 0 }
    (some meeting, { s with m_count := s.m_count + 1 })
  else
    (none, s)

/-- Method `SqliteStorage::Delete`. -/
def SqliteStorage.Delete (s : SqliteStorage) (id : Int) :
    Bool × SqliteStorage :=
  (true, { rows := sqlDelete s.rows id, m_count := s.m_count + 1 })

/-! ## Requests, responses and the five handlers -/

/-- Status code `HTTPResponse::HTTP_OK`. -/
def HTTP_OK : Nat := 200

/-- Status code `HTTPResponse::HTTP_NO_CONTENT`. -/
def HTTP_NO_CONTENT : Nat := 204

/-- Status code `HTTPResponse::HTTP_NOT_FOUND`. -/
def HTTP_NOT_FOUND : Nat := 404

/-- What a handler reads of the request: the outcome of
`nlohmann::json::parse(request.stream())`, the parsed value, or `none` when the
text of the body is not JSON and `parse` throws. -/
structure HTTPServerRequest where
  stream : Option Json

/-- What a handler writes: the status set on the response and the JSON value
sent as its body (`none` for `response.send()` with nothing written). -/
structure HTTPServerResponse where
  status : Nat
  body : Option Json

/-- The exceptions that leave a handler uncaught. -/
inductive Exception where
  | parse_failure
  | conversion_failure
deriving DecidableEq

/-- Handler `UserMeetingList::HandleRestRequest`: the array starts empty and
every meeting of `GetList` is pushed onto it. -/
def UserMeetingList.HandleRestRequest (storage : SqliteStorage) :
    Except Exception HTTPServerResponse × SqliteStorage :=
  let listed := storage.GetList
  let result := listed.1.foldl (fun result meeting => result.push_back (to_json meeting))
    (Json.array [])
  (.ok { status := HTTP_OK, body := some result }, listed.2)

/-- Handler `UserMeetingCreate::HandleRestRequest`. -/
def UserMeetingCreate.HandleRestRequest (storage : SqliteStorage)
    (request : HTTPServerRequest) :
    Except Exception HTTPServerResponse × SqliteStorage :=
  match request.stream with
  | none => (.error .parse_failure, storage)
  | some j =>
    match from_json j with
    | none => (.error .conversion_failure, storage)
    | some meeting =>
      let saved := storage.Save meeting
      (.ok { status := HTTP_OK, body := some (to_json saved.1) }, saved.2)

/-- Handler `UserMeetingRead::HandleRestRequest` for the path id `m_id`. -/
def UserMeetingRead.HandleRestRequest (m_id : Int) (storage : SqliteStorage) :
    Except Exception HTTPServerResponse × SqliteStorage :=
  let got := storage.Get m_id
  match got.1 with
  | some meeting =>
    (.ok { status := HTTP_OK, body := some (to_json meeting) }, got.2)
  | none => (.ok { status := HTTP_NOT_FOUND, body := none }, got.2)

/-- Handler `UserMeetingUpdate::HandleRestRequest` for the path id `m_id`. -/
def UserMeetingUpdate.HandleRestRequest (m_id : Int) (storage : SqliteStorage)
    (request : HTTPServerRequest) :
    Except Exception HTTPServerResponse × SqliteStorage :=
  let got := storage.Get m_id
  match got.1 with
  | some _ =>
    match request.stream with
    | none => (.error .parse_failure, got.2)
    | some body =>
      match from_json body with
      | none => (.error .conversion_failure, got.2)
      | some new_meeting =>
        let new_meeting := { new_meeting with id := some m_id }
        let saved := got.2.Save new_meeting
        (.ok { status := HTTP_OK, body := some (to_json saved.1) }, saved.2)
  | none => (.ok { status := HTTP_NOT_FOUND, body := none }, got.2)

/-- Handler `UserMeetingDelete::HandleRestRequest` for the path id `m_id`. -/
def UserMeetingDelete.HandleRestRequest (m_id : Int) (storage : SqliteStorage) :
    Except Exception HTTPServerResponse × SqliteStorage :=
  let deleted := storage.Delete m_id
  if deleted.1 then
    (.ok { status := HTTP_NO_CONTENT, body := none }, deleted.2)
  else
    (.ok { status := HTTP_NOT_FOUND, body := none }, deleted.2)

/-! ## Derived notions used in the statements -/

/-- Saves the meetings of a list one after another, collecting each meeting as
`Save` leaves it (with its id assigned). -/
def saveAll (s : SqliteStorage) : List Meeting → List Meeting × SqliteStorage
  | [] => ([], s)
  | m :: ms =>
    let saved := s.Save m
    let others := saveAll saved.2 ms
    (saved.1 :: others.1, others.2)

/-- What the storage keeps of a meeting: `id`, `name`, `description`,
`address` and `published`; the five other members are those of a
default-constructed meeting. -/
def stored (m : Meeting) : Meeting :=
  { Meeting.fresh with
    id := m.id, name := m.name, description := m.description,
    address := m.address, published := m.published }

/-- A storage whose table is empty. -/
def emptyStorage : SqliteStorage := { rows := [], m_count := 0 }

/-- The meeting of the unit test `json_marshal`, without its id. -/
def sampleMeeting : Meeting :=
  { id := none, name := "test", description := "desc", address := "addr",
    signup_description := "sdesc", signup_from_date := 1, signup_to_date := 2,
    from_date := 3, to_date := 4, published := true }

/-- A storage holding one row, with id 1. -/
def sampleStorage : SqliteStorage :=
  { rows := [{ id := 1, name := "old", description := "d", address := "a",
               published := 0 }],
    m_count := 0 }

/-- Numbers the meetings of a list with the consecutive row ids `next`,
`next + 1`, ..., each received into an `int`. -/
def assignIds (next : Int) : List Meeting → List Meeting
  | [] => []
  | m :: ms => { m with id := some (toInt32 next) } :: assignIds (next + 1) ms

/-- The body `{"id":1,"name":"test","description":"desc","address":"addr",
"signup_description":"sdesc","signup_from_date":1,"signup_to_date":2,
"from_date":3,"to_date":4,"published":true}`: the object of the unit test
`json_marshal`. -/
def bodyWithId (id : Int) : Json :=
  .object
    [("id", .number id), ("name", .string "test"), ("description", .string "desc"),
     ("address", .string "addr"), ("signup_description", .string "sdesc"),
     ("signup_from_date", .number 1), ("signup_to_date", .number 2),
     ("from_date", .number 3), ("to_date", .number 4),
     ("published", .boolean true)]

/-- The object of the unit test `json_unmarshal`, which has no `id`, in the
order the test writes it. -/
def bodyWithoutId : Json :=
  .object
    [("name", .string "test"), ("address", .string "addr"),
     ("description", .string "desc"), ("signup_description", .string "sdesc"),
     ("signup_from_date", .number 1), ("signup_to_date", .number 2),
     ("from_date", .number 3), ("to_date", .number 4),
     ("published", .boolean true)]

/-- A storage whose only row has the largest id an `int` holds. -/
def fullStorage : SqliteStorage :=
  { rows := [{ id := 2147483647, name := "last", description := "d",
               address := "a", published := 1 }],
    m_count := 0 }

/-! ## Lemmas on the SQL statements and the storage methods -/

theorem toInt32_of_fits (z : Int) (h1 : INT_MIN ≤ z) (h2 : z ≤ INT_MAX) :
    toInt32 z = z := by
  unfold toInt32
  unfold INT_MIN at h1
  unfold INT_MAX at h2
  omega

theorem lt_nextRowid (rows : List Row) : ∀ r ∈ rows, r.id < nextRowid rows := by
  induction rows with
  | nil => simp
  | cons a rs ih =>
    intro r hr
    simp only [nextRowid]
    split
    · rename_i h
      subst h
      simp at hr
      subst hr
      omega
    · rcases List.mem_cons.mp hr with h | h
      · subst h
        omega
      · have := ih r h
        omega

theorem sqlSelect_eq_none_iff (rows : List Row) (id : Int) :
    sqlSelect rows id = none ↔ ∀ r ∈ rows, r.id ≠ id := by
  simp [sqlSelect]

theorem sqlSelect_some_mem (rows : List Row) (id : Int) (row : Row)
    (h : sqlSelect rows id = some row) : row ∈ rows ∧ row.id = id := by
  unfold sqlSelect at h
  refine ⟨List.mem_of_find?_eq_some h, ?_⟩
  simpa using List.find?_some h

theorem sqlCount_pos_iff (rows : List Row) (id : Int) :
    sqlCount rows id > 0 ↔ ∃ r ∈ rows, r.id = id := by
  unfold sqlCount
  rw [gt_iff_lt, Int.natCast_pos, List.length_pos_iff_exists_mem]
  simp [List.mem_filter]

theorem Get_of_select_some (s : SqliteStorage) (id : Int) (row : Row)
    (h : sqlSelect s.rows id = some row) :
    s.Get id = (some (extract Meeting.fresh row), { s with m_count := s.m_count + 1 }) := by
  have hc : sqlCount s.rows id > 0 := by
    rw [sqlCount_pos_iff]
    exact ⟨row, sqlSelect_some_mem _ _ _ h⟩
  simp [SqliteStorage.Get, hc, h]

theorem Get_of_select_none (s : SqliteStorage) (id : Int)
    (h : sqlSelect s.rows id = none) : s.Get id = (none, s) := by
  have hc : ¬ sqlCount s.rows id > 0 := by
    rw [sqlCount_pos_iff]
    rw [sqlSelect_eq_none_iff] at h
    rintro ⟨r, hr, e⟩
    exact h r hr e
  simp [SqliteStorage.Get, hc]

theorem Get_fst (s : SqliteStorage) (id : Int) :
    (s.Get id).1 = (sqlSelect s.rows id).map (extract Meeting.fresh) := by
  cases h : sqlSelect s.rows id with
  | none => simp [Get_of_select_none s id h]
  | some row => simp [Get_of_select_some s id row h]

theorem Get_rows (s : SqliteStorage) (id : Int) : (s.Get id).2.rows = s.rows := by
  cases h : sqlSelect s.rows id with
  | none => simp [Get_of_select_none s id h]
  | some row => simp [Get_of_select_some s id row h]

theorem sqlSelect_sqlDelete_same (rows : List Row) (id : Int) :
    sqlSelect (sqlDelete rows id) id = none := by
  rw [sqlSelect_eq_none_iff]
  intro r hr
  simp [sqlDelete, List.mem_filter] at hr
  exact hr.2

theorem sqlSelect_sqlDelete_other (rows : List Row) (id j : Int) (h : j ≠ id) :
    sqlSelect (sqlDelete rows id) j = sqlSelect rows j := by
  simp only [sqlSelect, sqlDelete, List.find?_filter]
  congr 1
  funext r
  by_cases hj : r.id = j
  · have hi : ¬ r.id = id := fun e => h (hj ▸ e)
    simp [hj, hi]
    exact h
  · simp [hj]

theorem sqlDelete_idem (rows : List Row) (id : Int) :
    sqlDelete (sqlDelete rows id) id = sqlDelete rows id := by
  simp [sqlDelete, List.filter_filter]

theorem b2i_ne_zero (b : Bool) : (b2i b != 0) = b := by
  cases b <;> rfl

theorem extract_row_of (m : Meeting) (i : Int) :
    extract Meeting.fresh
      { id := i, name := m.name, description := m.description,
        address := m.address, published := b2i m.published } =
      stored { m with id := some (toInt32 i) } := by
  simp [extract, stored, b2i_ne_zero]

theorem Save_of_no_id (s : SqliteStorage) (m : Meeting) (hid : m.id = none) :
    s.Save m =
      ({ m with id := some (toInt32 (nextRowid s.rows)) },
       { rows := s.rows ++ [{ id := nextRowid s.rows, name := m.name,
                              description := m.description, address := m.address,
                              published := b2i m.published }],
         m_count := s.m_count + 1 }) := by
  simp [SqliteStorage.Save, hid, sqlInsert]

theorem Save_of_id (s : SqliteStorage) (m : Meeting) (i : Int) (hid : m.id = some i) :
    s.Save m =
      (m, { rows := sqlUpdate s.rows m.name m.description m.address (b2i m.published) i,
            m_count := s.m_count + 1 }) := by
  simp [SqliteStorage.Save, hid]

theorem sqlSelect_append_new (rows : List Row) (row : Row)
    (h : ∀ r ∈ rows, r.id ≠ row.id) :
    sqlSelect (rows ++ [row]) row.id = some row := by
  have h0 : List.find? (fun r => r.id == row.id) rows = none :=
    (sqlSelect_eq_none_iff rows row.id).mpr h
  simp [sqlSelect, List.find?_append, h0]

theorem sqlSelect_sqlUpdate_same (rows : List Row) (name description address : String)
    (published : Int) (i : Int) (h : ∃ r ∈ rows, r.id = i) :
    sqlSelect (sqlUpdate rows name description address published i) i =
      some { id := i, name := name, description := description, address := address,
             published := published } := by
  induction rows with
  | nil => simp at h
  | cons a rs ih =>
    by_cases ha : a.id = i
    · simp [sqlSelect, sqlUpdate, ha]
    · have h' : ∃ r ∈ rs, r.id = i := by
        obtain ⟨r, hr, e⟩ := h
        rcases List.mem_cons.mp hr with h1 | h1
        · exact absurd (h1 ▸ e) ha
        · exact ⟨r, h1, e⟩
      have := ih h'
      simp only [sqlSelect, sqlUpdate] at this ⊢
      simp [ha, this]

theorem sqlSelect_sqlUpdate_other (rows : List Row) (name description address : String)
    (published : Int) (i j : Int) (h : j ≠ i) :
    sqlSelect (sqlUpdate rows name description address published i) j =
      sqlSelect rows j := by
  induction rows with
  | nil => rfl
  | cons a rs ih =>
    simp only [sqlSelect, sqlUpdate] at ih ⊢
    by_cases ha : a.id = i
    · have hj : ¬ i = j := fun e => h e.symm
      simp [ha, hj, ih]
    · by_cases hj : a.id = j
      · subst hj
        simp [ha]
      · simp [ha, hj, ih]

theorem sqlUpdate_ids (rows : List Row) (name description address : String)
    (published : Int) (i : Int) :
    (sqlUpdate rows name description address published i).map (fun r => r.id) =
      rows.map (fun r => r.id) := by
  induction rows with
  | nil => rfl
  | cons a rs ih =>
    simp only [sqlUpdate] at ih ⊢
    by_cases ha : a.id = i <;> simp [ha, ih]

theorem sqlUpdate_others (rows : List Row) (name description address : String)
    (published : Int) (i : Int) :
    (sqlUpdate rows name description address published i).filter (fun r => r.id != i) =
      rows.filter (fun r => r.id != i) := by
  induction rows with
  | nil => rfl
  | cons a rs ih =>
    simp only [sqlUpdate] at ih ⊢
    by_cases ha : a.id = i <;> simp [ha, ih]

theorem sqlUpdate_same (rows : List Row) (name description address : String)
    (published : Int) (i : Int) :
    ∀ r ∈ sqlUpdate rows name description address published i, r.id = i →
      r.name = name ∧ r.description = description ∧ r.address = address ∧
      r.published = published := by
  intro r hr hi
  simp only [sqlUpdate, List.mem_map] at hr
  obtain ⟨a, _, e⟩ := hr
  by_cases ha : a.id = i
  · simp [ha] at e
    subst e
    simp
  · simp [ha] at e
    subst e
    exact absurd hi ha

theorem Update_of_row (s : SqliteStorage) (m_id : Int) (body : Json)
    (new_meeting : Meeting) (hrow : ∃ r ∈ s.rows, r.id = m_id)
    (hbody : from_json body = some new_meeting) :
    UserMeetingUpdate.HandleRestRequest m_id s { stream := some body } =
      (.ok { status := HTTP_OK,
             body := some (to_json { new_meeting with id := some m_id }) },
       { rows := sqlUpdate s.rows new_meeting.name new_meeting.description
           new_meeting.address (b2i new_meeting.published) m_id,
         m_count := s.m_count + 1 + 1 }) := by
  obtain ⟨r, hr, e⟩ := hrow
  cases hsel : sqlSelect s.rows m_id with
  | none => exact absurd e ((sqlSelect_eq_none_iff _ _).mp hsel r hr)
  | some row =>
    simp [UserMeetingUpdate.HandleRestRequest, Get_of_select_some s m_id row hsel,
      hbody, SqliteStorage.Save]

theorem Create_without_body_id (s : SqliteStorage) (body : Json) (meeting : Meeting)
    (hbody : from_json body = some meeting) (hid : meeting.id = none) :
    UserMeetingCreate.HandleRestRequest s { stream := some body } =
      (.ok { status := HTTP_OK,
             body := some (to_json
               { meeting with id := some (toInt32 (nextRowid s.rows)) }) },
       { rows := s.rows ++ [{ id := nextRowid s.rows, name := meeting.name,
                              description := meeting.description,
                              address := meeting.address,
                              published := b2i meeting.published }],
         m_count := s.m_count + 1 }) := by
  simp [UserMeetingCreate.HandleRestRequest, hbody, Save_of_no_id s meeting hid]

theorem extract_extract (m : Meeting) (r r' : Row) :
    extract (extract m r) r' = extract m r' := rfl

theorem fetchAll_eq (rows : List Row) :
    ∀ (m : Meeting) (list : List Meeting),
      fetchAll m rows list = list ++ rows.map (extract m) := by
  induction rows with
  | nil => intro m list; simp [fetchAll]
  | cons r rs ih =>
    intro m list
    simp only [fetchAll, ih, List.map_cons, List.append_assoc, List.singleton_append]
    congr 2

theorem GetList_fst (s : SqliteStorage) :
    s.GetList.1 = s.rows.map (extract Meeting.fresh) := by
  simp only [SqliteStorage.GetList, fetchAll_eq, List.nil_append]
  rfl

theorem nextRowid_cons_cons (a b : Row) (rs : List Row) :
    nextRowid (a :: b :: rs) = max (a.id + 1) (nextRowid (b :: rs)) := by
  rw [nextRowid]
  simp

theorem nextRowid_append (rows : List Row) (row : Row) (h : rows ≠ []) :
    nextRowid (rows ++ [row]) = max (nextRowid rows) (row.id + 1) := by
  induction rows with
  | nil => exact absurd rfl h
  | cons a rs ih =>
    cases rs with
    | nil => simp [nextRowid]
    | cons b rs' =>
      have := ih (by simp)
      rw [List.cons_append] at this
      rw [List.cons_append, List.cons_append, nextRowid_cons_cons,
        nextRowid_cons_cons, this]
      omega

theorem nextRowid_insert (rows : List Row) (row : Row) (h : row.id = nextRowid rows) :
    nextRowid (rows ++ [row]) = nextRowid rows + 1 := by
  cases rows with
  | nil => simp [nextRowid] at h ⊢; omega
  | cons a rs =>
    rw [nextRowid_append _ _ (by simp), h]
    omega

theorem push_back_fold (list : List Meeting) :
    ∀ xs : List Json,
      list.foldl (fun result meeting => result.push_back (to_json meeting))
        (Json.array xs) = Json.array (xs ++ list.map to_json) := by
  induction list with
  | nil => intro xs; simp
  | cons m ms ih =>
    intro xs
    rw [List.foldl_cons]
    show List.foldl _ (Json.array (xs ++ [to_json m])) ms = _
    rw [ih]
    simp

theorem List_handler_eq (s : SqliteStorage) :
    UserMeetingList.HandleRestRequest s =
      (.ok { status := HTTP_OK, body := some (.array (s.GetList.1.map to_json)) },
       s.GetList.2) := by
  simp [UserMeetingList.HandleRestRequest, push_back_fold]

theorem saveAll_GetList (ms : List Meeting) :
    ∀ s : SqliteStorage, (∀ m ∈ ms, m.id = none) →
      (saveAll s ms).1 = assignIds (nextRowid s.rows) ms ∧
      (saveAll s ms).2.GetList.1 =
        s.GetList.1 ++ (assignIds (nextRowid s.rows) ms).map stored := by
  induction ms with
  | nil => intro s _; simp [saveAll, assignIds]
  | cons m ms ih =>
    intro s hid
    have hm : m.id = none := hid m (List.mem_cons_self _ _)
    have hnext : nextRowid (s.Save m).2.rows = nextRowid s.rows + 1 := by
      rw [Save_of_no_id s m hm]
      exact nextRowid_insert _ _ rfl
    have hrec := ih (s.Save m).2 (fun x hx => hid x (List.mem_cons_of_mem _ hx))
    rw [hnext] at hrec
    have hsaved : (s.Save m).1 = { m with id := some (toInt32 (nextRowid s.rows)) } := by
      rw [Save_of_no_id s m hm]
    have hlist : (s.Save m).2.GetList.1 =
        s.GetList.1 ++ [stored { m with id := some (toInt32 (nextRowid s.rows)) }] := by
      rw [GetList_fst, GetList_fst, Save_of_no_id s m hm]
      simp only [List.map_append, List.map_cons, List.map_nil]
      rw [extract_row_of m]
    simp only [saveAll, assignIds, List.map_cons]
    refine ⟨?_, ?_⟩
    · rw [hsaved, hrec.1]
    · rw [hrec.2, hlist]
      simp

theorem length_assignIds (ms : List Meeting) :
    ∀ next : Int, (assignIds next ms).length = ms.length := by
  induction ms with
  | nil => intro _; rfl
  | cons m ms ih => intro next; simp [assignIds, ih]

theorem from_json_to_json (m : Meeting) : from_json (to_json m) = some m := by
  obtain ⟨id, a, b, c, d, e, f, g, h, p⟩ := m
  cases id <;> rfl

theorem keys_to_json (m : Meeting) :
    (to_json m).keys =
      (if m.id.isSome then ["id"] else []) ++
      ["name", "description", "address", "signup_description",
       "signup_from_date", "signup_to_date", "from_date", "to_date",
       "published"] := by
  obtain ⟨id, a, b, c, d, e, f, g, h, p⟩ := m
  cases id <;> rfl

theorem from_json_without_id (j : Json)
    (name description address signup_description : String)
    (signup_from_date signup_to_date from_date to_date : Int) (published : Bool)
    (h0 : j.find "id" = none)
    (h1 : j.find "name" = some (.string name))
    (h2 : j.find "description" = some (.string description))
    (h3 : j.find "address" = some (.string address))
    (h4 : j.find "signup_description" = some (.string signup_description))
    (h5 : j.find "signup_from_date" = some (.number signup_from_date))
    (h6 : j.find "signup_to_date" = some (.number signup_to_date))
    (h7 : j.find "from_date" = some (.number from_date))
    (h8 : j.find "to_date" = some (.number to_date))
    (h9 : j.find "published" = some (.boolean published)) :
    from_json j =
      some { id := none, name := name, description := description,
             address := address, signup_description := signup_description,
             signup_from_date := signup_from_date,
             signup_to_date := signup_to_date, from_date := from_date,
             to_date := to_date, published := published } := by
  simp [from_json, h0, h1, h2, h3, h4, h5, h6, h7, h8, h9, Json.getString,
    Json.getInt, Json.getBool]

theorem from_json_id_absent (j : Json) (m : Meeting) (h0 : j.find "id" = none)
    (h : from_json j = some m) : m.id = none := by
  unfold from_json at h
  simp only [h0] at h
  split at h
  · simp at h
    rw [← h]
  · simp at h

/-- Why C1's amended statement asks that the generated row id fit an `int`: on
a table whose largest id is `INT_MAX`, SQLite generates 2147483648, `Save`
reports the low 32 bits, -2147483648, and `Get` of the reported id finds no
row. -/
theorem Save_new_id_truncated :
    nextRowid fullStorage.rows = 2147483648 ∧
    (fullStorage.Save sampleMeeting).1.id = some (-2147483648) ∧
    ((fullStorage.Save sampleMeeting).2.Get (-2147483648)).1 = none := by
  decide

/-! ## Reading and deleting -/

/-- C5: for every storage and every id, `Get` returns a meeting exactly when a
row with that id exists and nothing otherwise, and leaves the table as it was;
the Read handler never throws: it answers 200 with the JSON of the meeting
extracted from that row when the row exists, 404 with an empty body when it
does not, and leaves the table as it was in both cases. -/
theorem Get_total_and_Read (s : SqliteStorage) (id : Int) :
    ((s.Get id).1.isSome = true ↔ ∃ r ∈ s.rows, r.id = id) ∧
    (s.Get id).2.rows = s.rows ∧
    (UserMeetingRead.HandleRestRequest id s).2.rows = s.rows ∧
    ((∃ row ∈ s.rows, row.id = id ∧
        (s.Get id).1 = some (extract Meeting.fresh row) ∧
        (UserMeetingRead.HandleRestRequest id s).1 =
          .ok { status := HTTP_OK,
                body := some (to_json (extract Meeting.fresh row)) }) ∨
     ((∀ r ∈ s.rows, r.id ≠ id) ∧ (s.Get id).1 = none ∧
        (UserMeetingRead.HandleRestRequest id s).1 =
          .ok { status := HTTP_NOT_FOUND, body := none })) := by
  refine ⟨?_, Get_rows s id, ?_, ?_⟩
  · rw [Get_fst]
    cases h : sqlSelect s.rows id with
    | none =>
      have := (sqlSelect_eq_none_iff _ _).mp h
      simp
      exact this
    | some row =>
      simp
      exact ⟨row, sqlSelect_some_mem _ _ _ h⟩
  · unfold UserMeetingRead.HandleRestRequest
    simp only
    split <;> exact Get_rows s id
  · cases h : sqlSelect s.rows id with
    | none =>
      right
      refine ⟨(sqlSelect_eq_none_iff _ _).mp h, ?_, ?_⟩
      · rw [Get_of_select_none s id h]
      · simp [UserMeetingRead.HandleRestRequest, Get_of_select_none s id h]
    | some row =>
      left
      have hm := sqlSelect_some_mem _ _ _ h
      refine ⟨row, hm.1, hm.2, ?_, ?_⟩
      · rw [Get_of_select_some s id row h]
      · simp [UserMeetingRead.HandleRestRequest, Get_of_select_some s id row h]

/-- C6: after `Delete(id)` a `Get` of that id returns nothing, and a `Get` of
any other id returns what it returned before the deletion (this holds for
every id, in particular for one that has a row). -/
theorem Delete_then_Get (s : SqliteStorage) (id : Int) :
    ((s.Delete id).2.Get id).1 = none ∧
    ∀ j : Int, j ≠ id → ((s.Delete id).2.Get j).1 = (s.Get j).1 := by
  constructor
  · rw [Get_fst]
    simp [SqliteStorage.Delete, sqlSelect_sqlDelete_same]
  · intro j hj
    rw [Get_fst, Get_fst]
    simp [SqliteStorage.Delete, sqlSelect_sqlDelete_other _ _ _ hj]

/-- C7: for every storage and every id, with or without a row of that id,
`Delete` returns true and the Delete handler answers 204 with an empty body,
never 404; deleting the same id a second time leaves the table that the first
deletion left, through the method and through the handler alike. -/
theorem Delete_always_succeeds (s : SqliteStorage) (id : Int) :
    (s.Delete id).1 = true ∧
    (UserMeetingDelete.HandleRestRequest id s).1 =
      .ok { status := HTTP_NO_CONTENT, body := none } ∧
    (∀ r, (UserMeetingDelete.HandleRestRequest id s).1 = .ok r →
      r.status ≠ HTTP_NOT_FOUND) ∧
    (UserMeetingDelete.HandleRestRequest id s).2 = (s.Delete id).2 ∧
    ((s.Delete id).2.Delete id).2.rows = (s.Delete id).2.rows ∧
    (UserMeetingDelete.HandleRestRequest id
      (UserMeetingDelete.HandleRestRequest id s).2).2.rows =
      (UserMeetingDelete.HandleRestRequest id s).2.rows := by
  refine ⟨rfl, rfl, ?_, rfl, ?_, ?_⟩
  · intro r hr
    have : r = { status := HTTP_NO_CONTENT, body := none } := by
      simp [UserMeetingDelete.HandleRestRequest, SqliteStorage.Delete] at hr
      exact hr.symm
    subst this
    decide
  · simp [SqliteStorage.Delete, sqlDelete_idem]
  · simp [UserMeetingDelete.HandleRestRequest, SqliteStorage.Delete, sqlDelete_idem]

/-- C4: for every storage, every path id that has no row and every request
body, well-formed or not, the Update handler answers 404 with an empty body
and leaves the storage exactly as it was. -/
theorem Update_missing_id (s : SqliteStorage) (m_id : Int)
    (request : HTTPServerRequest) (h : ∀ r ∈ s.rows, r.id ≠ m_id) :
    UserMeetingUpdate.HandleRestRequest m_id s request =
      (.ok { status := HTTP_NOT_FOUND, body := none }, s) := by
  have hs := (sqlSelect_eq_none_iff s.rows m_id).mpr h
  simp [UserMeetingUpdate.HandleRestRequest, Get_of_select_none s m_id hs]

/-- Witness of C4: path id 2 on a table whose only row has id 1, with a body
that is not JSON. -/
theorem Update_missing_id_witness :
    (∀ r ∈ sampleStorage.rows, r.id ≠ 2) ∧
    UserMeetingUpdate.HandleRestRequest 2 sampleStorage { stream := none } =
      (.ok { status := HTTP_NOT_FOUND, body := none }, sampleStorage) :=
  ⟨by decide, Update_missing_id sampleStorage 2 { stream := none } (by decide)⟩

/-! ## Saving -/

/-- C1, as the code has it: for every storage and every meeting without an id,
provided the row id SQLite generates fits the `int` that receives it, `Save`
gives the meeting an id that no row held before the call and changes no other
member of it, and a following `Get` of that id returns the meeting with that
id and the saved `name`, `description`, `address` and `published`; the five
members the statements never name (`signup_description`, `signup_from_date`,
`signup_to_date`, `from_date`, `to_date`) come back as those of a
default-constructed meeting. -/
theorem Save_new_then_Get (s : SqliteStorage) (m : Meeting) (hid : m.id = none)
    (hlo : INT_MIN ≤ nextRowid s.rows) (hhi : nextRowid s.rows ≤ INT_MAX) :
    ∃ i : Int,
      (s.Save m).1 = { m with id := some i } ∧
      (∀ r ∈ s.rows, r.id ≠ i) ∧
      ((s.Save m).2.Get i).1 = some (stored { m with id := some i }) := by
  have hnew : ∀ r ∈ s.rows, r.id ≠ nextRowid s.rows := fun r hr =>
    Int.ne_of_lt (lt_nextRowid s.rows r hr)
  refine ⟨nextRowid s.rows, ?_, hnew, ?_⟩
  · rw [Save_of_no_id s m hid, toInt32_of_fits _ hlo hhi]
  · rw [Save_of_no_id s m hid, Get_fst]
    have := sqlSelect_append_new s.rows
      { id := nextRowid s.rows, name := m.name, description := m.description,
        address := m.address, published := b2i m.published } hnew
    simp only at this
    simp only [this, Option.map_some']
    rw [extract_row_of m, toInt32_of_fits _ hlo hhi]

/-- Witness of C1's amended statement: the unit test's meeting saved into a
table whose only row has id 1. -/
theorem Save_new_then_Get_witness :
    (sampleMeeting.id = none ∧ INT_MIN ≤ nextRowid sampleStorage.rows ∧
      nextRowid sampleStorage.rows ≤ INT_MAX) ∧
    ∃ i : Int,
      (sampleStorage.Save sampleMeeting).1 = { sampleMeeting with id := some i } ∧
      (∀ r ∈ sampleStorage.rows, r.id ≠ i) ∧
      ((sampleStorage.Save sampleMeeting).2.Get i).1 =
        some (stored { sampleMeeting with id := some i }) :=
  ⟨by decide,
   Save_new_then_Get sampleStorage sampleMeeting rfl (by decide) (by decide)⟩

/-- C1 fails as stated: the unit test's meeting, saved without an id into an
empty table, gets id 1, and `Get(1)` then returns a meeting that differs from
it: its `signup_description` is empty, not "sdesc". -/
theorem Save_new_loses_signup_fields :
    sampleMeeting.id = none ∧
    (emptyStorage.Save sampleMeeting).1 = { sampleMeeting with id := some 1 } ∧
    ((emptyStorage.Save sampleMeeting).2.Get 1).1 ≠
      some { sampleMeeting with id := some 1 } ∧
    ((emptyStorage.Save sampleMeeting).2.Get 1).1.map
        (fun m => m.signup_description) = some "" ∧
    sampleMeeting.signup_description = "sdesc" := by
  decide

/-- C9, as the code has it: for every storage, every id of the `int` range
that has a row, and every meeting carrying that id, `Save` leaves the meeting
as it is, and a following `Get` of that id returns the new `name`,
`description`, `address` and `published` of the meeting under that id (the five
other members are those of a default-constructed meeting); the table keeps its
length and the id of every position, the rows of other ids are the same rows,
and a `Get` of another id returns what it returned before. -/
theorem Save_existing_then_Get (s : SqliteStorage) (m : Meeting) (i : Int)
    (hid : m.id = some i) (hrow : ∃ r ∈ s.rows, r.id = i)
    (hlo : INT_MIN ≤ i) (hhi : i ≤ INT_MAX) :
    (s.Save m).1 = m ∧
    ((s.Save m).2.Get i).1 = some (stored m) ∧
    (s.Save m).2.rows.length = s.rows.length ∧
    (s.Save m).2.rows.map (fun r => r.id) = s.rows.map (fun r => r.id) ∧
    (s.Save m).2.rows.filter (fun r => r.id != i) =
      s.rows.filter (fun r => r.id != i) ∧
    (∀ j : Int, j ≠ i → ((s.Save m).2.Get j).1 = (s.Get j).1) := by
  rw [Save_of_id s m i hid]
  refine ⟨rfl, ?_, ?_, sqlUpdate_ids _ _ _ _ _ _, sqlUpdate_others _ _ _ _ _ _, ?_⟩
  · rw [Get_fst]
    simp only [sqlSelect_sqlUpdate_same _ _ _ _ _ _ hrow, Option.map_some']
    rw [extract_row_of m i, toInt32_of_fits i hlo hhi]
    have : ({ m with id := some i } : Meeting) = m := by
      rw [← hid]
    rw [this]
  · simp [sqlUpdate]
  · intro j hj
    rw [Get_fst, Get_fst]
    simp only [sqlSelect_sqlUpdate_other _ _ _ _ _ _ _ hj]

/-- Witness of C9's amended statement: the unit test's meeting, carrying id 1,
saved over the row of id 1. -/
theorem Save_existing_then_Get_witness :
    ((∃ r ∈ sampleStorage.rows, r.id = 1) ∧ INT_MIN ≤ 1 ∧ (1 : Int) ≤ INT_MAX) ∧
    ((sampleStorage.Save { sampleMeeting with id := some 1 }).2.Get 1).1 =
      some (stored { sampleMeeting with id := some 1 }) ∧
    (sampleStorage.Save { sampleMeeting with id := some 1 }).2.rows.length =
      sampleStorage.rows.length :=
  ⟨by decide,
   (Save_existing_then_Get sampleStorage { sampleMeeting with id := some 1 } 1
      rfl (by decide) (by decide) (by decide)).2.1,
   (Save_existing_then_Get sampleStorage { sampleMeeting with id := some 1 } 1
      rfl (by decide) (by decide) (by decide)).2.2.1⟩

/-- C9 fails as stated: the unit test's meeting, carrying id 1, saved over the
row of id 1; `Get(1)` then returns the `name` of the meeting but an empty
`signup_description`, not "sdesc": not the new value of every field. -/
theorem Save_existing_loses_signup_fields :
    (∃ r ∈ sampleStorage.rows, r.id = 1) ∧
    ((sampleStorage.Save { sampleMeeting with id := some 1 }).2.Get 1).1 ≠
      some { sampleMeeting with id := some 1 } ∧
    ((sampleStorage.Save { sampleMeeting with id := some 1 }).2.Get 1).1.map
        (fun m => m.name) = some "test" ∧
    ((sampleStorage.Save { sampleMeeting with id := some 1 }).2.Get 1).1.map
        (fun m => m.signup_description) = some "" ∧
    sampleMeeting.signup_description = "sdesc" := by
  decide

/-! ## Updating and creating through the handlers -/

/-- C3, as the code has it: for every storage, every path id that has a row
and every body that unmarshals to a meeting (with or without an `id` of its
own), the Update handler answers 200 with the body's meeting under the path
id, every other member being the body's; afterwards a row with the path id
exists and every such row holds the body's `name`, `description`, `address`
and `published` (as 0 or 1); the table keeps the id of every position, so no
row is created, and the rows of other ids are the same rows as before. The
body's `signup_description`, `signup_from_date`, `signup_to_date`,
`from_date` and `to_date` are in the response and in no row. -/
theorem Update_existing (s : SqliteStorage) (m_id : Int) (body : Json)
    (new_meeting : Meeting) (hrow : ∃ r ∈ s.rows, r.id = m_id)
    (hbody : from_json body = some new_meeting) :
    (UserMeetingUpdate.HandleRestRequest m_id s { stream := some body }).1 =
      .ok { status := HTTP_OK,
            body := some (to_json { new_meeting with id := some m_id }) } ∧
    (∃ r ∈ (UserMeetingUpdate.HandleRestRequest m_id s
        { stream := some body }).2.rows, r.id = m_id) ∧
    (∀ r ∈ (UserMeetingUpdate.HandleRestRequest m_id s
        { stream := some body }).2.rows, r.id = m_id →
      r.name = new_meeting.name ∧ r.description = new_meeting.description ∧
      r.address = new_meeting.address ∧
      r.published = b2i new_meeting.published) ∧
    (UserMeetingUpdate.HandleRestRequest m_id s
        { stream := some body }).2.rows.map (fun r => r.id) =
      s.rows.map (fun r => r.id) ∧
    (UserMeetingUpdate.HandleRestRequest m_id s
        { stream := some body }).2.rows.filter (fun r => r.id != m_id) =
      s.rows.filter (fun r => r.id != m_id) := by
  rw [Update_of_row s m_id body new_meeting hrow hbody]
  refine ⟨rfl, ?_, sqlUpdate_same _ _ _ _ _ _, sqlUpdate_ids _ _ _ _ _ _,
    sqlUpdate_others _ _ _ _ _ _⟩
  have := sqlSelect_some_mem _ _ _
    (sqlSelect_sqlUpdate_same s.rows new_meeting.name new_meeting.description
      new_meeting.address (b2i new_meeting.published) m_id hrow)
  exact ⟨_, this.1, this.2⟩

/-- Witness of C3's amended statement: the unit test's object carrying id 5,
sent to path id 1 of a table whose only row has id 1. -/
theorem Update_existing_witness :
    (∃ r ∈ sampleStorage.rows, r.id = 1) ∧
    from_json (bodyWithId 5) = some { sampleMeeting with id := some 5 } ∧
    (UserMeetingUpdate.HandleRestRequest 1 sampleStorage
        { stream := some (bodyWithId 5) }).1 =
      .ok { status := HTTP_OK,
            body := some (to_json { sampleMeeting with id := some 1 }) } :=
  ⟨by decide, rfl,
   (Update_existing sampleStorage 1 (bodyWithId 5)
      { sampleMeeting with id := some 5 } (by decide) rfl).1⟩

/-- C3 fails as stated: two well-formed bodies that differ in
`signup_description` ("sdesc" and "other"), sent to path id 1 of a table whose
only row has id 1, leave the same storage, whose row of id 1 is
(1, "test", "desc", "addr", 1); reading id 1 back gives an empty
`signup_description`. The row does not hold this field of the body. -/
theorem Update_row_lacks_signup_fields :
    from_json (bodyWithId 5) = some { sampleMeeting with id := some 5 } ∧
    from_json (to_json { sampleMeeting with signup_description := "other" }) =
      some { sampleMeeting with signup_description := "other" } ∧
    (UserMeetingUpdate.HandleRestRequest 1 sampleStorage
        { stream := some (bodyWithId 5) }).2 =
      (UserMeetingUpdate.HandleRestRequest 1 sampleStorage
        { stream := some
            (to_json { sampleMeeting with signup_description := "other" }) }).2 ∧
    (UserMeetingUpdate.HandleRestRequest 1 sampleStorage
        { stream := some (bodyWithId 5) }).2.rows =
      [{ id := 1, name := "test", description := "desc", address := "addr",
         published := 1 }] ∧
    ((UserMeetingUpdate.HandleRestRequest 1 sampleStorage
        { stream := some (bodyWithId 5) }).2.Get 1).1.map
        (fun m => m.signup_description) = some "" := by
  decide

/-- C2 at its failing inputs. On a table whose only row has id 1, the Create
handler given the unit test's object with `"id": 1` answers 200 with id 1, the
id the client sent, adds no row and overwrites the row of id 1; given the same
object with `"id": 7`, an id no row has, it answers 200 with id 7 and leaves
the table as it was, so the meeting of the response is stored nowhere. -/
theorem Create_with_body_id :
    (UserMeetingCreate.HandleRestRequest sampleStorage
        { stream := some (bodyWithId 1) }).1 =
      .ok { status := HTTP_OK,
            body := some (to_json { sampleMeeting with id := some 1 }) } ∧
    (UserMeetingCreate.HandleRestRequest sampleStorage
        { stream := some (bodyWithId 1) }).2.rows =
      [{ id := 1, name := "test", description := "desc", address := "addr",
         published := 1 }] ∧
    sampleStorage.rows =
      [{ id := 1, name := "old", description := "d", address := "a",
         published := 0 }] ∧
    (UserMeetingCreate.HandleRestRequest sampleStorage
        { stream := some (bodyWithId 7) }).1 =
      .ok { status := HTTP_OK,
            body := some (to_json { sampleMeeting with id := some 7 }) } ∧
    (UserMeetingCreate.HandleRestRequest sampleStorage
        { stream := some (bodyWithId 7) }).2.rows = sampleStorage.rows ∧
    ((UserMeetingCreate.HandleRestRequest sampleStorage
        { stream := some (bodyWithId 7) }).2.Get 7).1 = none :=
  ⟨rfl, by decide, rfl, rfl, by decide, by decide⟩

/-! ## Listing -/

/-- C8, as the code has it: for every list of meetings without ids saved one
after another into an empty table, `Save` numbers them 1, 2, 3, ... in turn
(each row id received into an `int`) and changes no other member, and
`GetList` then returns a list of the length of the input whose elements, as a
multiset, are exactly the saved meetings as the storage keeps them: each with
its assigned id and its saved `name`, `description`, `address` and
`published`, the five other members being those of a default-constructed
meeting. The List handler answers 200 with the array of the JSON of the list
`GetList` returns, and with the empty array on an empty table. -/
theorem GetList_after_saves (s : SqliteStorage) (ms : List Meeting)
    (hempty : s.rows = []) (hid : ∀ m ∈ ms, m.id = none) :
    (saveAll s ms).1 = assignIds 1 ms ∧
    List.Perm (saveAll s ms).2.GetList.1 ((saveAll s ms).1.map stored) ∧
    (saveAll s ms).2.GetList.1.length = ms.length ∧
    (UserMeetingList.HandleRestRequest (saveAll s ms).2).1 =
      .ok { status := HTTP_OK,
            body := some (.array ((saveAll s ms).2.GetList.1.map to_json)) } ∧
    (UserMeetingList.HandleRestRequest s).1 =
      .ok { status := HTTP_OK, body := some (.array []) } := by
  have hnext : nextRowid s.rows = 1 := by rw [hempty]; rfl
  have h0 : s.GetList.1 = [] := by rw [GetList_fst, hempty]; rfl
  have hmain := saveAll_GetList ms s hid
  rw [hnext, h0, List.nil_append] at hmain
  have heq : (saveAll s ms).2.GetList.1 = (saveAll s ms).1.map stored := by
    rw [hmain.2, hmain.1]
  refine ⟨hmain.1, List.Perm.of_eq heq, ?_, ?_, ?_⟩
  · rw [hmain.2, List.length_map, length_assignIds]
  · rw [List_handler_eq]
  · rw [List_handler_eq, h0]
    rfl

/-- Witness of C8's amended statement: the unit test's meeting saved twice into
the empty table; `Save` assigns the ids 1 and 2. -/
theorem GetList_after_saves_witness :
    emptyStorage.rows = [] ∧
    (∀ m ∈ [sampleMeeting, sampleMeeting], m.id = none) ∧
    (saveAll emptyStorage [sampleMeeting, sampleMeeting]).1 =
      assignIds 1 [sampleMeeting, sampleMeeting] ∧
    List.Perm (saveAll emptyStorage [sampleMeeting, sampleMeeting]).2.GetList.1
      ((saveAll emptyStorage [sampleMeeting, sampleMeeting]).1.map stored) ∧
    (saveAll emptyStorage [sampleMeeting, sampleMeeting]).2.GetList.1.length = 2 ∧
    (saveAll emptyStorage [sampleMeeting, sampleMeeting]).1.map (fun m => m.id) =
      [some 1, some 2] :=
  ⟨rfl, by decide,
   (GetList_after_saves emptyStorage [sampleMeeting, sampleMeeting] rfl
      (by decide)).1,
   (GetList_after_saves emptyStorage [sampleMeeting, sampleMeeting] rfl
      (by decide)).2.1,
   (GetList_after_saves emptyStorage [sampleMeeting, sampleMeeting] rfl
      (by decide)).2.2.1,
   by decide⟩

/-- C8 fails as stated: after the unit test's meeting is saved, without an id,
into the empty table, `Save` has given it id 1 and `GetList` returns one
meeting, which is not the saved one: its `signup_description` is empty. The
returned list is not a permutation of the saved meetings. -/
theorem GetList_loses_signup_fields :
    (saveAll emptyStorage [sampleMeeting]).1 = [{ sampleMeeting with id := some 1 }] ∧
    (saveAll emptyStorage [sampleMeeting]).2.GetList.1.length = 1 ∧
    ¬ List.Perm (saveAll emptyStorage [sampleMeeting]).2.GetList.1
        (saveAll emptyStorage [sampleMeeting]).1 ∧
    (saveAll emptyStorage [sampleMeeting]).2.GetList.1.map
        (fun m => m.signup_description) = [""] := by
  decide

/-! ## JSON mapping -/

/-- C10: for every meeting `m`, unmarshaling the JSON that marshaling `m`
produces gives back `m`, equal in every field, an absent id included; the
object's keys are exactly `id` (only when `m` has one), `name`,
`description`, `address`, `signup_description`, `signup_from_date`,
`signup_to_date`, `from_date`, `to_date`, `published`; and unmarshaling any
object that lacks `id` and holds the nine other fields succeeds with `id`
absent, never zero. -/
theorem json_roundtrip (m : Meeting) :
    from_json (to_json m) = some m ∧
    (to_json m).keys =
      (if m.id.isSome then ["id"] else []) ++
      ["name", "description", "address", "signup_description",
       "signup_from_date", "signup_to_date", "from_date", "to_date",
       "published"] ∧
    (∀ (j : Json) (name description address signup_description : String)
       (signup_from_date signup_to_date from_date to_date : Int)
       (published : Bool),
       j.find "id" = none →
       j.find "name" = some (.string name) →
       j.find "description" = some (.string description) →
       j.find "address" = some (.string address) →
       j.find "signup_description" = some (.string signup_description) →
       j.find "signup_from_date" = some (.number signup_from_date) →
       j.find "signup_to_date" = some (.number signup_to_date) →
       j.find "from_date" = some (.number from_date) →
       j.find "to_date" = some (.number to_date) →
       j.find "published" = some (.boolean published) →
       from_json j =
         some { id := none, name := name, description := description,
                address := address, signup_description := signup_description,
                signup_from_date := signup_from_date,
                signup_to_date := signup_to_date, from_date := from_date,
                to_date := to_date, published := published }) ∧
    (∀ (j : Json) (m' : Meeting),
       j.find "id" = none → from_json j = some m' → m'.id = none ∧ m'.id ≠ some 0) :=
  ⟨from_json_to_json m, keys_to_json m, from_json_without_id,
   fun j m' h0 h => by
     have := from_json_id_absent j m' h0 h
     rw [this]
     exact ⟨rfl, by simp⟩⟩

/-- Witness of C10: the unit test `json_unmarshal`. Its object, which has no
`id`, unmarshals to the test's target meeting, whose id is absent. -/
theorem json_roundtrip_witness :
    bodyWithoutId.find "id" = none ∧
    from_json bodyWithoutId = some sampleMeeting ∧
    sampleMeeting.id = none :=
  ⟨rfl,
   (json_roundtrip sampleMeeting).2.2.1 bodyWithoutId "test" "desc" "addr"
     "sdesc" 1 2 3 4 true rfl rfl rfl rfl rfl rfl rfl rfl rfl rfl,
   rfl⟩


end handlers
